import Mathlib

/-!
Verification of the subprovisioner CSI driver's volume state machine and
controller logic, as a shallow embedding of the Go sources.

Modelling conventions:

* A Kubernetes PVC is modelled by the `Pvc` structure.  Go's
  `pvc.Annotations[key]` returns `""` for a missing key, so the `state`
  annotation is modelled as a plain `String` with `""` standing for an
  absent annotation; the `staged-on-nodes` annotation is modelled as an
  `Option String` because `UnstagePvcFromNode` distinguishes deleting the
  annotation (`none`) from storing a value.
* The `capacity` annotation of a PVC (and the `size` annotation of a
  snapshot) is always written with `strconv.FormatInt` and read back with
  `strconv.ParseInt`; it is modelled as the parsed value, `Option Int`,
  where `none` stands for a missing or unparseable annotation.
* The read-modify-write-with-conflict-retry helpers (`SetPvcStateTo`,
  `StagePvcOnNode`, `UnstagePvcFromNode`) are modelled as pure functions
  `Pvc → ... → Except GrpcErr Pvc`: `.ok pvc'` means the update call was
  issued with the new object `pvc'`, while `.error e` means the helper
  returned before issuing any update, leaving the object untouched (every
  `return status.Errorf(...)` in the Go bodies precedes the `Update` call).
  The conflict-retry loop re-runs the same body, so it is not modelled.
* The controller RPC handlers perform external calls (object lookups, job
  creation, waiting on jobs, patches).  Each handler is modelled as a pure
  function of the request plus an environment record holding the outcome
  of each external call, and returns the gRPC result together with the
  ordered trace of external mutating calls it issued.
* Go `int64` arithmetic is modelled on `Int` with an explicit `wrap64`
  applied where the Go code can overflow; Go's truncating division on
  `int64` is `Int.tdiv`.
-/

namespace Subprovisioner

/-- gRPC status codes used by the driver. -/
inductive Code where
  | invalidArgument
  | failedPrecondition
  | unknown
deriving DecidableEq, Repr

/-- A gRPC status error as produced by `status.Errorf(code, msg)`. -/
structure GrpcErr where
  code : Code
  msg : String
deriving DecidableEq, Repr

/-- `common.Domain`. -/
def Domain : String := "subprovisioner.gitlab.io"

/-! ### The comma-joined set encoding (`stringListToSet` / `setToStringList`)

Go's `strings.Split(s, ",")` and the `strings.Builder` loop of
`setToStringList` are modelled at the character-list level.  A Go
`map[string]struct{}` is modelled as a duplicate-free `List String`; the
iteration order of a Go map is unspecified, so one concrete order is fixed
(first occurrence wins, insertion appends). -/

/-- `strings.Split(s, ",")` on character lists.  Note `strings.Split("", ",")`
returns `[""]`, i.e. `splitChars [] = [[]]`. -/
def splitChars : List Char → List (List Char)
  | [] => [[]]
  | c :: cs =>
    match splitChars cs with
    | [] => [[]]
    | h :: t => if c = ',' then [] :: h :: t else (c :: h) :: t

/-- Joining with `','`, mirroring the builder loop of `setToStringList`
(no separator before the first item). -/
def joinChars : List (List Char) → List Char
  | [] => []
  | [x] => x
  | x :: y :: t => x ++ ',' :: joinChars (y :: t)

/-- `strings.Split(list, ",")` lifted to `String`. -/
def splitOnComma (s : String) : List String :=
  (splitChars s.data).map String.mk

/-- `stringListToSet` from `pkg/csiplugin/common/pvc.go`: the empty string
denotes the empty set; otherwise split on commas and collect into a set
(modelled as a duplicate-free list). -/
def stringListToSet (list : String) : List String :=
  if list = "" then [] else (splitOnComma list).dedup

/-- `setToStringList` from `pkg/csiplugin/common/pvc.go`: join the members
with commas. -/
def setToStringList (set : List String) : String :=
  String.mk (joinChars (set.map String.data))

/-- Go's `set[item] = struct{}{}` on the list model of a set. -/
def setInsert (set : List String) (item : String) : List String :=
  if item ∈ set then set else set ++ [item]

/-! ### The PVC model and the state-machine helpers -/

/-- The slice of a `corev1.PersistentVolumeClaim` that the driver reads and
writes.  `state` is the `Domain + "/state"` annotation (`""` when absent),
`stagedOnNodes` the `Domain + "/staged-on-nodes"` annotation (`none` when
absent), `capacityAnn` the parsed `Domain + "/capacity"` annotation. -/
structure Pvc where
  uid : String := ""
  deletionTimestamp : Bool := false
  state : String := ""
  stagedOnNodes : Option String := none
  finalizers : List String := []
  capacityAnn : Option Int := none
deriving DecidableEq, Repr

/-- Reading the `staged-on-nodes` annotation: a missing annotation reads as
`""`, exactly as Go's map lookup does. -/
def Pvc.stagedOnRead (pvc : Pvc) : String :=
  pvc.stagedOnNodes.getD ""

/-- `SetPvcStateTo` from `pkg/csiplugin/common/pvc.go`.  The Go switch tries
`case newState` first, then `case "idle"`, then the named busy states, then
a default; the deletion-timestamp check precedes the switch. -/
def SetPvcStateTo (pvc : Pvc) (newState : String) : Except GrpcErr Pvc :=
  if pvc.deletionTimestamp then
    .error ⟨.failedPrecondition, "volume is being deleted"⟩
  else if pvc.state = newState then
    .ok pvc
  else if pvc.state = "idle" then
    .ok { pvc with state := newState }
  else if pvc.state = "expanding" then
    .error ⟨.failedPrecondition, "volume is being expanded"⟩
  else if pvc.state = "cloning" then
    .error ⟨.failedPrecondition, "volume is being cloned"⟩
  else if pvc.state = "snapshotting" then
    .error ⟨.failedPrecondition, "volume is being snapshotted"⟩
  else if pvc.state = "staged" then
    .error ⟨.failedPrecondition, "volume is staged"⟩
  else
    .error ⟨.failedPrecondition, "volume is in an unknown state"⟩

/-- `StagePvcOnNode` from `pkg/csiplugin/common/pvc.go`. -/
def StagePvcOnNode (pvc : Pvc) (nodeName : String) : Except GrpcErr Pvc :=
  if pvc.deletionTimestamp then
    .error ⟨.failedPrecondition, "volume is being deleted"⟩
  else if pvc.state = "expanding" then
    .error ⟨.failedPrecondition, "volume is being expanded"⟩
  else if pvc.state = "snapshotting" then
    .error ⟨.failedPrecondition, "volume is being snapshotted"⟩
  else if pvc.state = "cloning" then
    .error ⟨.failedPrecondition, "volume is being cloned"⟩
  else if pvc.state ≠ "idle" ∧ pvc.state ≠ "staged" then
    .error ⟨.failedPrecondition, "volume is in an unknown state"⟩
  else
    let stagedOnNodes := setInsert (stringListToSet pvc.stagedOnRead) nodeName
    .ok { pvc with
            state := "staged",
            stagedOnNodes := some (setToStringList stagedOnNodes) }

/-- `UnstagePvcFromNode` from `pkg/csiplugin/common/pvc.go`.  Go deletes
`nodeName` from the map; on the list model this is a filter.  When the set
empties, the annotation is deleted and the state reset to idle; in every
case the helper ends with an update and succeeds. -/
def UnstagePvcFromNode (pvc : Pvc) (nodeName : String) : Except GrpcErr Pvc :=
  if pvc.state = "staged" then
    let stagedOnNodes := (stringListToSet pvc.stagedOnRead).filter (fun x => x ≠ nodeName)
    if stagedOnNodes.length = 0 then
      .ok { pvc with stagedOnNodes := none, state := "idle" }
    else
      .ok { pvc with stagedOnNodes := some (setToStringList stagedOnNodes) }
  else
    .ok pvc

/-! ### The deletion reaper (`pkg/csiplugin/controller/monitor.go`) -/

/-- The external mutating calls made by `deleteVolume` in the reaper, in
program order. -/
inductive ReaperStep where
  | deleteCreationJob
  | createDeletionJob
  | awaitDeletionJob
  | deleteDeletionJob
  | dropFinalizer
deriving DecidableEq, Repr

/-- Outcomes of the external calls made while reaping one PVC. -/
structure ReaperEnv where
  deleteCreationJobOk : Bool := true
  createDeletionJobOk : Bool := true
  awaitDeletionJobOk : Bool := true
  deleteDeletionJobOk : Bool := true
  dropFinalizerOk : Bool := true
deriving DecidableEq, Repr

/-- `deleteVolume` from `monitor.go`: delete the creation job, create and
await a deletion job, delete the deletion job, drop the cleanup finalizer;
each step runs only after the previous one succeeded.  Returns whether the
whole sequence succeeded, with the trace of calls issued. -/
def deleteVolume (env : ReaperEnv) : Bool × List ReaperStep :=
  if ¬ env.deleteCreationJobOk then
    (false, [.deleteCreationJob])
  else if ¬ env.createDeletionJobOk then
    (false, [.deleteCreationJob, .createDeletionJob])
  else if ¬ env.awaitDeletionJobOk then
    (false, [.deleteCreationJob, .createDeletionJob, .awaitDeletionJob])
  else if ¬ env.deleteDeletionJobOk then
    (false, [.deleteCreationJob, .createDeletionJob, .awaitDeletionJob, .deleteDeletionJob])
  else if ¬ env.dropFinalizerOk then
    (false, [.deleteCreationJob, .createDeletionJob, .awaitDeletionJob, .deleteDeletionJob,
             .dropFinalizer])
  else
    (true, [.deleteCreationJob, .createDeletionJob, .awaitDeletionJob, .deleteDeletionJob,
            .dropFinalizer])

/-- What `processNextItem` does with the dequeued key afterwards. -/
inductive Outcome where
  | forgotten
  | requeued
deriving DecidableEq, Repr

/-- The re-fetch of the PVC in `processNextItem`: `.error ()` is a transport
error (re-enqueue), `.ok none` is NotFound (drop the key), `.ok (some pvc)`
is a successful get. -/
def processNextItem (fetch : Except Unit (Option Pvc)) (env : ReaperEnv) :
    Outcome × List ReaperStep :=
  match fetch with
  | .error _ => (.requeued, [])
  | .ok none => (.forgotten, [])
  | .ok (some pvc) =>
    let pvcIsStaged := pvc.stagedOnRead ≠ ""
    let pvcHasFinalizer := (Domain ++ "/cleanup") ∈ pvc.finalizers
    if ¬ pvcIsStaged ∧ pvcHasFinalizer then
      match deleteVolume env with
      | (true, steps) => (.forgotten, steps)
      | (false, steps) => (.requeued, steps)
    else
      (.forgotten, [])

/-! ### Capacity validation and the controller RPCs (`csi.go`) -/

/-- Two to the 63rd, the magnitude of the `int64` range. -/
def twoPow63 : Int := 9223372036854775808

/-- Wrap an integer into the `int64` range, as Go's two's-complement
arithmetic does on overflow. -/
def wrap64 (n : Int) : Int :=
  (n + twoPow63) % (2 * twoPow63) - twoPow63

/-- A `csi.CapacityRange`. -/
structure CapacityRange where
  requiredBytes : Int
  limitBytes : Int
deriving DecidableEq, Repr

/-- `validateCapacity` from the controller server: requires a range with a
non-zero minimum, `min ≤ max` when a non-zero max is given, rounds the
minimum up to a multiple of 512 with `(min + 511) / 512 * 512` in `int64`
arithmetic, and rejects when the rounded value exceeds a non-zero max.
Returns `(capacity, minCapacity, maxCapacity)`. -/
def validateCapacity (capacityRange : Option CapacityRange) :
    Except GrpcErr (Int × Int × Int) :=
  match capacityRange with
  | none => .error ⟨.invalidArgument, "must specify capacity"⟩
  | some r =>
    let minCapacity := r.requiredBytes
    let maxCapacity := r.limitBytes
    if minCapacity = 0 then
      .error ⟨.invalidArgument, "must specify minimum capacity"⟩
    else if maxCapacity ≠ 0 ∧ maxCapacity < minCapacity then
      .error ⟨.invalidArgument, "minimum capacity must not exceed maximum capacity"⟩
    else
      let capacity := wrap64 (Int.tdiv (wrap64 (minCapacity + 511)) 512 * 512)
      if maxCapacity ≠ 0 ∧ maxCapacity < capacity then
        .error ⟨.invalidArgument, "capacity must be a multiple of 512"⟩
      else
        .ok (capacity, minCapacity, maxCapacity)

/-- A generic error standing for a failed Kubernetes job operation, whose
concrete error value the Go code just propagates. -/
def jobErr : GrpcErr := ⟨.unknown, "job operation failed"⟩

/-- A generic error standing for a failed PVC patch, whose concrete error
value the Go code just propagates. -/
def patchErr : GrpcErr := ⟨.unknown, "patch failed"⟩

/-- The external mutating calls made by `ControllerExpandVolume`, in program
order (`findPvc` is the lookup; it is recorded to mark how far the handler
got). -/
inductive ExpandStep where
  | findPvc
  | setStateExpanding
  | createExpansionJob (jobCapacity : Int)
  | awaitExpansionJob
  | deleteExpansionJob
  | patchCapacityIdle (newCapacity : Int)
deriving DecidableEq, Repr

/-- Outcomes of the external calls made by `ControllerExpandVolume`. -/
structure ExpandEnv where
  pvcLookup : Except GrpcErr Pvc := .ok {}
  setStateRes : Except GrpcErr Unit := .ok ()
  createJobOk : Bool := true
  awaitJobOk : Bool := true
  deleteJobOk : Bool := true
  patchOk : Bool := true

/-- A `csi.ControllerExpandVolumeResponse`. -/
structure ExpandResponse where
  capacityBytes : Int
  nodeExpansionRequired : Bool
deriving DecidableEq, Repr

/-- `ControllerExpandVolume` from the controller server: check the volume
id, validate the capacity range, look the PVC up by its uid label, parse
its capacity annotation, reject when the current capacity exceeds a
non-zero max, return early when the volume is already big enough, and
otherwise run the expanding transition, the expansion job, and the final
capacity-and-idle patch. -/
def controllerExpandVolume (volumeId : String) (range : Option CapacityRange)
    (env : ExpandEnv) : Except GrpcErr ExpandResponse × List ExpandStep :=
  if volumeId = "" then
    (.error ⟨.invalidArgument, "must specify volume id"⟩, [])
  else
    match validateCapacity range with
    | .error e => (.error e, [])
    | .ok (capacity, _, maxCapacity) =>
      match env.pvcLookup with
      | .error e => (.error e, [.findPvc])
      | .ok pvc =>
        match pvc.capacityAnn with
        | none =>
          (.error ⟨.unknown, "failed to determine current volume capacity"⟩, [.findPvc])
        | some currentCapacity =>
          if maxCapacity ≠ 0 ∧ currentCapacity > maxCapacity then
            (.error ⟨.invalidArgument,
                     "current volume capacity exceeds maximum capacity"⟩, [.findPvc])
          else if currentCapacity ≥ capacity then
            (.ok ⟨currentCapacity, false⟩, [.findPvc])
          else
            match env.setStateRes with
            | .error e => (.error e, [.findPvc, .setStateExpanding])
            | .ok _ =>
              if ¬ env.createJobOk then
                (.error jobErr,
                 [.findPvc, .setStateExpanding, .createExpansionJob capacity])
              else if ¬ env.awaitJobOk then
                (.error jobErr,
                 [.findPvc, .setStateExpanding, .createExpansionJob capacity,
                  .awaitExpansionJob])
              else if ¬ env.deleteJobOk then
                (.error jobErr,
                 [.findPvc, .setStateExpanding, .createExpansionJob capacity,
                  .awaitExpansionJob, .deleteExpansionJob])
              else if ¬ env.patchOk then
                (.error patchErr,
                 [.findPvc, .setStateExpanding, .createExpansionJob capacity,
                  .awaitExpansionJob, .deleteExpansionJob, .patchCapacityIdle capacity])
              else
                (.ok ⟨capacity, false⟩,
                 [.findPvc, .setStateExpanding, .createExpansionJob capacity,
                  .awaitExpansionJob, .deleteExpansionJob, .patchCapacityIdle capacity])

/-! ### `CreateVolume` and its helpers (`csi.go`) -/

/-- The slice of a `VolumeSnapshot` object the driver reads: its uid and
the parsed `Domain + "/size"` annotation. -/
structure Snap where
  uid : String := ""
  sizeAnn : Option Int := none
deriving DecidableEq, Repr

/-- `csi.VolumeCapability_AccessMode_Mode` values. -/
inductive AccessMode where
  | singleNodeWriter
  | singleNodeReaderOnly
  | multiNodeReaderOnly
  | singleNodeSingleWriter
  | singleNodeMultiWriter
  | multiNodeSingleWriter
  | multiNodeMultiWriter
deriving DecidableEq, Repr

/-- A `csi.VolumeCapability`: whether the access type is Block, and the
access mode. -/
structure VolumeCapability where
  isBlock : Bool
  accessMode : AccessMode
deriving DecidableEq, Repr

/-- The access modes accepted by the switch in `CreateVolume`. -/
def accessModeSupported : AccessMode → Bool
  | .singleNodeWriter => true
  | .singleNodeReaderOnly => true
  | .multiNodeReaderOnly => true
  | .singleNodeSingleWriter => true
  | .singleNodeMultiWriter => true
  | _ => false

/-- A `csi.VolumeContentSource`: absent, a source volume, a source
snapshot, or set-but-unrecognized. -/
inductive ContentSource where
  | volume (volumeId : String)
  | snapshot (snapshotId : String)
  | unsupported
deriving DecidableEq, Repr

/-- A `csi.CreateVolumeRequest`.  `parameters` models the Go string map
(lookup of a missing key gives `""`). -/
structure CreateVolumeRequest where
  parameters : List (String × String) := []
  capacityRange : Option CapacityRange := none
  volumeCapabilities : List VolumeCapability := []
  volumeContentSource : Option ContentSource := none
deriving Repr

/-- Go map lookup `req.Parameters[key]`: `""` when the key is absent. -/
def getParam (params : List (String × String)) (key : String) : String :=
  match params.find? (fun p => p.1 = key) with
  | some p => p.2
  | none => ""

/-- The external mutating calls made by `CreateVolume` and its helpers, in
program order.  `patchPvc c` is the strategic-merge patch that applies the
cleanup finalizer together with the backing/state annotations and the
capacity annotation `c`; `createJob c` dispatches the image-creation job
whose command receives capacity `c`. -/
inductive CreateStep where
  | getPvc
  | patchPvc (capacityAnn : Int)
  | findSourcePvc
  | setSourceCloning
  | findSnapshot
  | createJob (jobCapacity : Int)
  | awaitJob
  | setSourceIdle
deriving DecidableEq, Repr

/-- Outcomes of the external calls made by `CreateVolume`. -/
structure CreateEnv where
  getPvcRes : Except GrpcErr Pvc := .ok {}
  patchOk : Bool := true
  sourcePvcRes : Except GrpcErr Pvc := .ok {}
  setCloningRes : Except GrpcErr Unit := .ok ()
  snapshotRes : Except GrpcErr Snap := .ok {}
  createJobOk : Bool := true
  awaitJobOk : Bool := true
  setIdleRes : Except GrpcErr Unit := .ok ()

/-- `createVolumeFromNothing`: dispatch the creation job with the requested
capacity and await it. -/
def createVolumeFromNothing (env : CreateEnv) (capacity : Int) :
    Except GrpcErr Unit × List CreateStep :=
  if ¬ env.createJobOk then
    (.error jobErr, [.createJob capacity])
  else if ¬ env.awaitJobOk then
    (.error jobErr, [.createJob capacity, .awaitJob])
  else
    (.ok (), [.createJob capacity, .awaitJob])

/-- `createVolumeFromVolume`: find the source PVC, move it to `cloning`,
read its capacity annotation, reject a source larger than a non-zero max,
raise the local capacity to the source capacity if smaller, run the clone
job, and put the source back to idle. -/
def createVolumeFromVolume (env : CreateEnv) (capacity maxCapacity : Int) :
    Except GrpcErr Unit × List CreateStep :=
  match env.sourcePvcRes with
  | .error e => (.error e, [.findSourcePvc])
  | .ok sourcePvc =>
    match env.setCloningRes with
    | .error e => (.error e, [.findSourcePvc, .setSourceCloning])
    | .ok _ =>
      match sourcePvc.capacityAnn with
      | none =>
        (.error ⟨.unknown, "failed to determine source volume capacity"⟩,
         [.findSourcePvc, .setSourceCloning])
      | some sourceCapacity =>
        if maxCapacity ≠ 0 ∧ sourceCapacity > maxCapacity then
          (.error ⟨.invalidArgument,
                   "source volume capacity exceeds maximum capacity"⟩,
           [.findSourcePvc, .setSourceCloning])
        else
          let capacity := if capacity < sourceCapacity then sourceCapacity else capacity
          if ¬ env.createJobOk then
            (.error jobErr, [.findSourcePvc, .setSourceCloning, .createJob capacity])
          else if ¬ env.awaitJobOk then
            (.error jobErr,
             [.findSourcePvc, .setSourceCloning, .createJob capacity, .awaitJob])
          else
            match env.setIdleRes with
            | .error e =>
              (.error e,
               [.findSourcePvc, .setSourceCloning, .createJob capacity, .awaitJob,
                .setSourceIdle])
            | .ok _ =>
              (.ok (),
               [.findSourcePvc, .setSourceCloning, .createJob capacity, .awaitJob,
                .setSourceIdle])

/-- `createVolumeFromSnapshot`: find the snapshot, read its size
annotation, reject a snapshot larger than a non-zero max, raise the local
capacity to the snapshot size if smaller, and run the overlay-creation
job. -/
def createVolumeFromSnapshot (env : CreateEnv) (capacity maxCapacity : Int) :
    Except GrpcErr Unit × List CreateStep :=
  match env.snapshotRes with
  | .error e => (.error e, [.findSnapshot])
  | .ok snap =>
    match snap.sizeAnn with
    | none =>
      (.error ⟨.unknown, "failed to determine source snapshot size"⟩, [.findSnapshot])
    | some snapshotSize =>
      if maxCapacity ≠ 0 ∧ snapshotSize > maxCapacity then
        (.error ⟨.invalidArgument,
                 "source snapshot size exceeds maximum capacity"⟩, [.findSnapshot])
      else
        let capacity := if capacity < snapshotSize then snapshotSize else capacity
        if ¬ env.createJobOk then
          (.error jobErr, [.findSnapshot, .createJob capacity])
        else if ¬ env.awaitJobOk then
          (.error jobErr, [.findSnapshot, .createJob capacity, .awaitJob])
        else
          (.ok (), [.findSnapshot, .createJob capacity, .awaitJob])

/-- A `csi.CreateVolumeResponse` (the fields the claims speak about). -/
structure CreateVolumeResponse where
  capacityBytes : Int
  volumeId : String
deriving DecidableEq, Repr

/-- The capability-checking loop of `CreateVolume`: fail on the first
capability that is not Block or has an unsupported access mode. -/
def checkCapabilities : List VolumeCapability → Except GrpcErr Unit
  | [] => .ok ()
  | cap :: rest =>
    if ¬ cap.isBlock then
      .error ⟨.invalidArgument, "only block volumes are supported"⟩
    else if ¬ accessModeSupported cap.accessMode then
      .error ⟨.invalidArgument,
              "only access modes ReadWriteOnce, ReadWriteOncePod, and ReadOnlyMany are supported"⟩
    else checkCapabilities rest

/-- The `status.Errorf(codes.InvalidArgument, "missing/empty parameter ...")`
error of `CreateVolume`. -/
def missingParamErr (key : String) : GrpcErr :=
  ⟨.invalidArgument, "missing/empty parameter " ++ key⟩

/-- `CreateVolume` from the controller server: read the four required
parameters, get the PVC, validate the capacity range, check the
capabilities, patch the finalizer and annotations (the capacity annotation
receives the rounded requested capacity), then dispatch to the
content-source helper, and answer with the rounded requested capacity. -/
def createVolume (req : CreateVolumeRequest) (env : CreateEnv) :
    Except GrpcErr CreateVolumeResponse × List CreateStep :=
  if getParam req.parameters "csi.storage.k8s.io/pvc/name" = "" then
    (.error (missingParamErr "csi.storage.k8s.io/pvc/name"), [])
  else if getParam req.parameters "csi.storage.k8s.io/pvc/namespace" = "" then
    (.error (missingParamErr "csi.storage.k8s.io/pvc/namespace"), [])
  else if getParam req.parameters "backingClaimName" = "" then
    (.error (missingParamErr "backingClaimName"), [])
  else if getParam req.parameters "backingClaimNamespace" = "" then
    (.error (missingParamErr "backingClaimNamespace"), [])
  else
    match env.getPvcRes with
    | .error e => (.error e, [.getPvc])
    | .ok pvc =>
      match validateCapacity req.capacityRange with
      | .error e => (.error e, [.getPvc])
      | .ok (capacity, _, maxCapacity) =>
        match checkCapabilities req.volumeCapabilities with
        | .error e => (.error e, [.getPvc])
        | .ok _ =>
          if ¬ env.patchOk then
            (.error patchErr, [.getPvc, .patchPvc capacity])
          else
            let dispatched :=
              match req.volumeContentSource with
              | none => createVolumeFromNothing env capacity
              | some (.volume _) => createVolumeFromVolume env capacity maxCapacity
              | some (.snapshot _) => createVolumeFromSnapshot env capacity maxCapacity
              | some .unsupported =>
                (.error ⟨.invalidArgument, "unsupported volume content source"⟩, [])
            match dispatched with
            | (.error e, steps) => (.error e, .getPvc :: .patchPvc capacity :: steps)
            | (.ok _, steps) =>
              (.ok ⟨capacity, pvc.uid⟩, .getPvc :: .patchPvc capacity :: steps)

/-- The patch step predicate, for ordering statements about traces. -/
def CreateStep.isPatch : CreateStep → Bool
  | .patchPvc _ => true
  | _ => false

/-- The creation-job step predicate, for ordering statements about traces. -/
def CreateStep.isCreateJob : CreateStep → Bool
  | .createJob _ => true
  | _ => false

/-! ### Lemmas about the comma-joined encoding -/

theorem splitChars_ne_nil (l : List Char) : splitChars l ≠ [] := by
  induction l with
  | nil => simp [splitChars]
  | cons c cs ih =>
    simp only [splitChars]
    rcases h : splitChars cs with _ | ⟨hd, tl⟩
    · exact absurd h ih
    · by_cases hc : c = ',' <;> simp [hc]

theorem splitChars_cons_eq {c : Char} {cs : List Char} {hd : List Char}
    {tl : List (List Char)} (h : splitChars cs = hd :: tl) :
    splitChars (c :: cs) = if c = ',' then [] :: hd :: tl else (c :: hd) :: tl := by
  simp only [splitChars, h]

theorem comma_not_mem_of_mem_splitChars {l p : List Char}
    (hp : p ∈ splitChars l) : ',' ∉ p := by
  induction l generalizing p with
  | nil =>
    simp only [splitChars, List.mem_singleton] at hp
    simp [hp]
  | cons c cs ih =>
    rcases h : splitChars cs with _ | ⟨hd, tl⟩
    · exact absurd h (splitChars_ne_nil cs)
    · rw [splitChars_cons_eq h] at hp
      by_cases hc : c = ','
      · rw [if_pos hc] at hp
        rcases List.mem_cons.mp hp with rfl | hp'
        · simp
        · exact ih (h ▸ hp')
      · rw [if_neg hc] at hp
        rcases List.mem_cons.mp hp with rfl | hp'
        · intro hmem
          rcases List.mem_cons.mp hmem with rfl | hmem'
          · exact hc rfl
          · exact ih (h ▸ List.mem_cons_self hd tl) hmem'
        · exact ih (h ▸ List.mem_cons_of_mem hd hp')

theorem splitChars_of_no_comma {a : List Char} (ha : ',' ∉ a) :
    splitChars a = [a] := by
  induction a with
  | nil => simp [splitChars]
  | cons c a' ih =>
    have hc : c ≠ ',' := fun h => ha (h ▸ List.mem_cons_self c a')
    have ha' : ',' ∉ a' := fun h => ha (List.mem_cons_of_mem c h)
    rw [splitChars_cons_eq (ih ha'), if_neg hc]

theorem splitChars_append_comma {a : List Char} (r : List Char) (ha : ',' ∉ a) :
    splitChars (a ++ ',' :: r) = a :: splitChars r := by
  induction a with
  | nil =>
    rcases h : splitChars r with _ | ⟨hd, tl⟩
    · exact absurd h (splitChars_ne_nil r)
    · rw [List.nil_append, splitChars_cons_eq h, if_pos rfl]
  | cons c a' ih =>
    have hc : c ≠ ',' := fun h => ha (h ▸ List.mem_cons_self c a')
    have ha' : ',' ∉ a' := fun h => ha (List.mem_cons_of_mem c h)
    have step : splitChars (a' ++ ',' :: r) = a' :: splitChars r := ih ha'
    rw [List.cons_append, splitChars_cons_eq step, if_neg hc]

theorem splitChars_joinChars {L : List (List Char)} (hL : L ≠ [])
    (hc : ∀ p ∈ L, ',' ∉ p) : splitChars (joinChars L) = L := by
  induction L with
  | nil => exact absurd rfl hL
  | cons x t ih =>
    cases t with
    | nil => simpa [joinChars] using splitChars_of_no_comma (hc x (List.mem_cons_self x []))
    | cons y t' =>
      rw [joinChars, splitChars_append_comma _ (hc x (List.mem_cons_self x (y :: t')))]
      rw [ih (by simp) (fun p hp => hc p (List.mem_cons_of_mem x hp))]

theorem joinChars_eq_nil_iff (L : List (List Char)) :
    joinChars L = [] ↔ L = [] ∨ L = [[]] := by
  rcases L with _ | ⟨x, _ | ⟨y, t⟩⟩ <;> simp [joinChars]

theorem mk_data (s : String) : String.mk s.data = s := rfl

theorem data_mk (l : List Char) : (String.mk l).data = l := rfl

/-- Every member of a decoded staged-on-nodes set is comma-free. -/
theorem mem_stringListToSet_no_comma {s : String} {x : String}
    (hx : x ∈ stringListToSet s) : ',' ∉ x.data := by
  unfold stringListToSet at hx
  split at hx
  · simp at hx
  · rw [List.mem_dedup] at hx
    unfold splitOnComma at hx
    rcases List.mem_map.mp hx with ⟨p, hp, rfl⟩
    exact comma_not_mem_of_mem_splitChars hp

/-- A decoded staged-on-nodes set has no duplicates. -/
theorem stringListToSet_nodup (s : String) : (stringListToSet s).Nodup := by
  unfold stringListToSet
  split
  · exact List.nodup_nil
  · exact List.nodup_dedup _

/-- Decoding after encoding is the identity on duplicate-free lists of
non-empty, comma-free strings. -/
theorem stringListToSet_setToStringList {l : List String} (hnd : l.Nodup)
    (hsing : l ≠ [""]) (hc : ∀ x ∈ l, ',' ∉ x.data) :
    stringListToSet (setToStringList l) = l := by
  rcases eq_or_ne l [] with rfl | hl
  · rfl
  · have hmapne : l.map String.data ≠ [] := by
      intro h
      exact hl (List.map_eq_nil_iff.mp h)
    have hnotsingle : l.map String.data ≠ [[]] := by
      intro h
      rcases l with _ | ⟨x, t⟩
      · exact hl rfl
      · simp only [List.map_cons, List.cons_eq_cons] at h
        have hx : x = "" := String.ext h.1
        have ht : t = [] := List.map_eq_nil_iff.mp h.2
        exact hsing (by rw [hx, ht])
    have hjoin : joinChars (l.map String.data) ≠ [] := by
      intro h
      rcases (joinChars_eq_nil_iff _).mp h with h' | h'
      · exact hmapne h'
      · exact hnotsingle h'
    have hsne : setToStringList l ≠ "" := by
      intro h
      exact hjoin (congrArg String.data h)
    unfold stringListToSet
    rw [if_neg hsne]
    unfold splitOnComma setToStringList
    rw [data_mk]
    rw [splitChars_joinChars hmapne (by
      intro p hp
      rcases List.mem_map.mp hp with ⟨x, hx, rfl⟩
      exact hc x hx)]
    have hmk : (l.map String.data).map String.mk = l := by
      rw [List.map_map]
      have hcomp : (String.mk ∘ String.data) = id := funext mk_data
      rw [hcomp, List.map_id]
    rw [hmk]
    exact hnd.dedup

theorem mem_setInsert {s : List String} {item x : String} :
    x ∈ setInsert s item ↔ x ∈ s ∨ x = item := by
  unfold setInsert
  split
  · rename_i h
    constructor
    · exact Or.inl
    · rintro (hx | rfl)
      · exact hx
      · exact h
  · simp [List.mem_append]

theorem setInsert_mem_self (s : List String) (item : String) :
    item ∈ setInsert s item :=
  mem_setInsert.mpr (Or.inr rfl)

theorem setInsert_nodup {s : List String} (hnd : s.Nodup) (item : String) :
    (setInsert s item).Nodup := by
  unfold setInsert
  split
  · exact hnd
  · rename_i h
    simp [List.nodup_append, hnd, h]

/-! ### The claims -/

/-- C1: For every claim object and every requested non-idle state `s`
(expanding, cloning, snapshotting), `SetPvcStateTo` succeeds without
modifying the claim when the current state annotation already equals `s`;
writes `s` when the current state is idle; returns a precondition-failed
error "volume is being deleted" whenever the deletion timestamp is set; and
otherwise returns a precondition-failed error naming the current state
(being expanded, cloned, snapshotted, or staged) — indeed every remaining
path is a precondition-failed error, issued before any update, so the
claim is unmodified on every error path. -/
theorem setPvcStateTo_transition_spec (pvc : Pvc) (s : String)
    (hs : s = "expanding" ∨ s = "cloning" ∨ s = "snapshotting") :
    (pvc.deletionTimestamp = true →
      SetPvcStateTo pvc s = .error ⟨.failedPrecondition, "volume is being deleted"⟩) ∧
    (pvc.deletionTimestamp = false → pvc.state = s →
      SetPvcStateTo pvc s = .ok pvc) ∧
    (pvc.deletionTimestamp = false → pvc.state = "idle" →
      SetPvcStateTo pvc s = .ok { pvc with state := s }) ∧
    (pvc.deletionTimestamp = false → pvc.state ≠ s → pvc.state = "expanding" →
      SetPvcStateTo pvc s = .error ⟨.failedPrecondition, "volume is being expanded"⟩) ∧
    (pvc.deletionTimestamp = false → pvc.state ≠ s → pvc.state = "cloning" →
      SetPvcStateTo pvc s = .error ⟨.failedPrecondition, "volume is being cloned"⟩) ∧
    (pvc.deletionTimestamp = false → pvc.state ≠ s → pvc.state = "snapshotting" →
      SetPvcStateTo pvc s = .error ⟨.failedPrecondition, "volume is being snapshotted"⟩) ∧
    (pvc.deletionTimestamp = false → pvc.state = "staged" →
      SetPvcStateTo pvc s = .error ⟨.failedPrecondition, "volume is staged"⟩) ∧
    (pvc.deletionTimestamp = false → pvc.state ≠ s → pvc.state ≠ "idle" →
      ∃ m, SetPvcStateTo pvc s = .error ⟨.failedPrecondition, m⟩) := by
  have hsi : s ≠ "idle" := by rcases hs with rfl | rfl | rfl <;> decide
  have hss : s ≠ "staged" := by rcases hs with rfl | rfl | rfl <;> decide
  refine ⟨?_, ?_, ?_, ?_, ?_, ?_, ?_, ?_⟩
  · intro hdt
    simp [SetPvcStateTo, hdt]
  · intro hdt hst
    simp [SetPvcStateTo, hdt, hst]
  · intro hdt hst
    simp [SetPvcStateTo, hdt, hst, Ne.symm hsi]
  · intro hdt hne h1
    rw [h1] at hne
    rcases hs with rfl | rfl | rfl <;>
      first
        | (simp [SetPvcStateTo, hdt, h1, hne]; exact hne rfl)
        | simp [SetPvcStateTo, hdt, h1, hne]
  · intro hdt hne h1
    rw [h1] at hne
    rcases hs with rfl | rfl | rfl <;>
      first
        | (simp [SetPvcStateTo, hdt, h1, hne]; exact hne rfl)
        | simp [SetPvcStateTo, hdt, h1, hne]
  · intro hdt hne h1
    rw [h1] at hne
    rcases hs with rfl | rfl | rfl <;>
      first
        | (simp [SetPvcStateTo, hdt, h1, hne]; exact hne rfl)
        | simp [SetPvcStateTo, hdt, h1, hne]
  · intro hdt h1
    simp [SetPvcStateTo, hdt, h1, Ne.symm hss]
  · intro hdt hne hni
    unfold SetPvcStateTo
    rw [hdt]
    simp only [Bool.false_eq_true, if_false]
    rw [if_neg hne, if_neg hni]
    by_cases h1 : pvc.state = "expanding"
    · rw [if_pos h1]; exact ⟨_, rfl⟩
    · rw [if_neg h1]
      by_cases h2 : pvc.state = "cloning"
      · rw [if_pos h2]; exact ⟨_, rfl⟩
      · rw [if_neg h2]
        by_cases h3 : pvc.state = "snapshotting"
        · rw [if_pos h3]; exact ⟨_, rfl⟩
        · rw [if_neg h3]
          by_cases h4 : pvc.state = "staged"
          · rw [if_pos h4]; exact ⟨_, rfl⟩
          · rw [if_neg h4]; exact ⟨_, rfl⟩

/-- C1, witness: an idle volume transitions to expanding. -/
theorem setPvcStateTo_transition_spec_witness :
    SetPvcStateTo { state := "idle" } "expanding" = .ok { state := "expanding" } :=
  (setPvcStateTo_transition_spec { state := "idle" } "expanding" (Or.inl rfl)).2.2.1 rfl rfl

/-- C3: For every claim whose deletion timestamp is unset and whose state is
idle or staged, `StagePvcOnNode node` sets the state annotation to staged and
stores the union of the previous staged-on set with `{node}`; when the
deletion timestamp is set or the state is expanding, cloning, or
snapshotting, it returns a precondition-failed error before issuing any
update.  (Node names are non-empty and comma-free, as the encoding
requires.) -/
theorem stagePvcOnNode_spec (pvc : Pvc) (nodeName : String)
    (hnode : nodeName ≠ "") (hcomma : ',' ∉ nodeName.data) :
    (pvc.deletionTimestamp = false → (pvc.state = "idle" ∨ pvc.state = "staged") →
      ∃ ann, StagePvcOnNode pvc nodeName =
          .ok { pvc with state := "staged", stagedOnNodes := some ann } ∧
        ∀ x, x ∈ stringListToSet ann ↔
          x ∈ stringListToSet pvc.stagedOnRead ∨ x = nodeName) ∧
    (pvc.deletionTimestamp = true ∨ pvc.state = "expanding" ∨ pvc.state = "cloning" ∨
        pvc.state = "snapshotting" →
      ∃ m, StagePvcOnNode pvc nodeName = .error ⟨.failedPrecondition, m⟩) := by
  constructor
  · intro hdt hstate
    have hLnd : (setInsert (stringListToSet pvc.stagedOnRead) nodeName).Nodup :=
      setInsert_nodup (stringListToSet_nodup _) _
    have hLc : ∀ x ∈ setInsert (stringListToSet pvc.stagedOnRead) nodeName, ',' ∉ x.data := by
      intro x hx
      rcases mem_setInsert.mp hx with hx' | rfl
      · exact mem_stringListToSet_no_comma hx'
      · exact hcomma
    have hLsing : setInsert (stringListToSet pvc.stagedOnRead) nodeName ≠ [""] := by
      intro h
      have hmem := setInsert_mem_self (stringListToSet pvc.stagedOnRead) nodeName
      rw [h, List.mem_singleton] at hmem
      exact hnode hmem
    refine ⟨setToStringList (setInsert (stringListToSet pvc.stagedOnRead) nodeName), ?_, ?_⟩
    · rcases hstate with h | h <;> simp [StagePvcOnNode, hdt, h]
    · intro x
      rw [stringListToSet_setToStringList hLnd hLsing hLc, mem_setInsert]
  · intro h
    by_cases hdt : pvc.deletionTimestamp = true
    · exact ⟨"volume is being deleted", by simp [StagePvcOnNode, hdt]⟩
    · rcases h with hdt' | h | h | h
      · exact absurd hdt' hdt
      · exact ⟨"volume is being expanded", by simp [StagePvcOnNode, hdt, h]⟩
      · exact ⟨"volume is being cloned", by simp [StagePvcOnNode, hdt, h]⟩
      · exact ⟨"volume is being snapshotted", by simp [StagePvcOnNode, hdt, h]⟩

/-- C3, witness: staging an idle volume already known on `node-a` onto
`node-b` yields the staged state with the union set. -/
theorem stagePvcOnNode_spec_witness :
    ∃ ann,
      StagePvcOnNode { state := "idle", stagedOnNodes := some "node-a" } "node-b" =
          .ok { ({ state := "idle", stagedOnNodes := some "node-a" } : Pvc) with
                  state := "staged", stagedOnNodes := some ann } ∧
        ∀ x, x ∈ stringListToSet ann ↔
          x ∈ stringListToSet
              (Pvc.stagedOnRead { state := "idle", stagedOnNodes := some "node-a" }) ∨
            x = "node-b" :=
  (stagePvcOnNode_spec { state := "idle", stagedOnNodes := some "node-a" } "node-b"
    (by decide) (by decide)).1 rfl (Or.inl rfl)

/-- C4: For every claim in state staged, `UnstagePvcFromNode node` removes
`node` from the staged-on set; exactly when the resulting set is empty it
clears the staged-on annotation and sets the state to idle, and otherwise
the state stays staged with the reduced set stored; the unstage operation
never returns an error, whatever the deletion timestamp or state. -/
theorem unstagePvcFromNode_spec (pvc : Pvc) (nodeName : String) :
    (∃ p', UnstagePvcFromNode pvc nodeName = .ok p') ∧
    (pvc.state ≠ "staged" → UnstagePvcFromNode pvc nodeName = .ok pvc) ∧
    (pvc.state = "staged" →
      ((stringListToSet pvc.stagedOnRead).filter (fun x => x ≠ nodeName) = [] →
        UnstagePvcFromNode pvc nodeName =
          .ok { pvc with stagedOnNodes := none, state := "idle" }) ∧
      ((stringListToSet pvc.stagedOnRead).filter (fun x => x ≠ nodeName) ≠ [] →
        UnstagePvcFromNode pvc nodeName =
            .ok { pvc with
                    stagedOnNodes := some (setToStringList
                        ((stringListToSet pvc.stagedOnRead).filter
                          (fun x => x ≠ nodeName))) } ∧
          ((∀ x ∈ stringListToSet pvc.stagedOnRead, x ≠ "") →
            ∀ x, x ∈ stringListToSet (setToStringList
                ((stringListToSet pvc.stagedOnRead).filter (fun x => x ≠ nodeName))) ↔
              x ∈ stringListToSet pvc.stagedOnRead ∧ x ≠ nodeName))) := by
  have unstage_eval : UnstagePvcFromNode pvc nodeName =
      if pvc.state = "staged" then
        if ((stringListToSet pvc.stagedOnRead).filter
            (fun x => x ≠ nodeName)).length = 0 then
          .ok { pvc with stagedOnNodes := none, state := "idle" }
        else
          .ok { pvc with
                  stagedOnNodes := some (setToStringList
                      ((stringListToSet pvc.stagedOnRead).filter
                        (fun x => x ≠ nodeName))) }
      else .ok pvc := rfl
  refine ⟨?_, ?_, ?_⟩
  · rw [unstage_eval]
    by_cases hst : pvc.state = "staged"
    · rw [if_pos hst]
      by_cases hlen : ((stringListToSet pvc.stagedOnRead).filter
          (fun x => x ≠ nodeName)).length = 0
      · rw [if_pos hlen]; exact ⟨_, rfl⟩
      · rw [if_neg hlen]; exact ⟨_, rfl⟩
    · rw [if_neg hst]; exact ⟨pvc, rfl⟩
  · intro hst
    rw [unstage_eval, if_neg hst]
  · intro hst
    constructor
    · intro hempty
      rw [unstage_eval, if_pos hst, if_pos (List.length_eq_zero.mpr hempty)]
    · intro hne
      constructor
      · rw [unstage_eval, if_pos hst,
          if_neg (fun h => hne (List.length_eq_zero.mp h))]
      · intro hnonempty x
        have hnd : ((stringListToSet pvc.stagedOnRead).filter
            (fun x => x ≠ nodeName)).Nodup :=
          (stringListToSet_nodup _).filter _
        have hc : ∀ y ∈ (stringListToSet pvc.stagedOnRead).filter
            (fun x => x ≠ nodeName), ',' ∉ y.data := by
          intro y hy
          exact mem_stringListToSet_no_comma (List.mem_of_mem_filter hy)
        have hsing : (stringListToSet pvc.stagedOnRead).filter
            (fun x => x ≠ nodeName) ≠ [""] := by
          intro h
          have : ("" : String) ∈ (stringListToSet pvc.stagedOnRead).filter
              (fun x => x ≠ nodeName) := by
            rw [h]; exact List.mem_singleton_self ""
          exact hnonempty "" (List.mem_of_mem_filter this) rfl
        rw [stringListToSet_setToStringList hnd hsing hc, List.mem_filter]
        simp

/-- C4, witness: unstaging the last node empties the set, clears the
annotation and resets the state to idle. -/
theorem unstagePvcFromNode_spec_witness :
    UnstagePvcFromNode { state := "staged", stagedOnNodes := some "node-a" } "node-a" =
      .ok { ({ state := "staged", stagedOnNodes := some "node-a" } : Pvc) with
              stagedOnNodes := none, state := "idle" } :=
  ((unstagePvcFromNode_spec { state := "staged", stagedOnNodes := some "node-a" }
    "node-a").2.2 rfl).1 (by decide)

/-- C9: the comma-joined encoding of the staged-on set round-trips: decoding
the encoding of a duplicate-free list of non-empty comma-free strings gives
the list back; the empty set encodes to `""` and `""` decodes to the empty
set. -/
theorem stagedOn_encoding_roundtrip (l : List String) (hnd : l.Nodup)
    (h : ∀ x ∈ l, x ≠ "" ∧ ',' ∉ x.data) :
    stringListToSet (setToStringList l) = l ∧
    setToStringList [] = "" ∧ stringListToSet "" = [] := by
  refine ⟨?_, rfl, rfl⟩
  refine stringListToSet_setToStringList hnd ?_ (fun x hx => (h x hx).2)
  intro hsing
  have hmem : ("" : String) ∈ l := by rw [hsing]; exact List.mem_singleton_self ""
  exact (h "" hmem).1 rfl

/-- C9, witness: the encoding round-trips on the concrete set
`{node-a, node-b}`. -/
theorem stagedOn_encoding_roundtrip_witness :
    stringListToSet (setToStringList ["node-a", "node-b"]) = ["node-a", "node-b"] ∧
    setToStringList [] = "" ∧ stringListToSet "" = [] :=
  stagedOn_encoding_roundtrip ["node-a", "node-b"] (by decide) (by decide)

/-- C10, counterexample: on a claim with an unknown state annotation whose
deletion timestamp is set, both `SetPvcStateTo` and `StagePvcOnNode` return
the precondition-failed error "volume is being deleted", not the
unknown-state error the claim promises for every claim with an unknown
state. -/
theorem unknownState_deleted_cex :
    SetPvcStateTo { deletionTimestamp := true, state := "garbage" } "expanding" =
        .error ⟨.failedPrecondition, "volume is being deleted"⟩ ∧
      StagePvcOnNode { deletionTimestamp := true, state := "garbage" } "node-1" =
        .error ⟨.failedPrecondition, "volume is being deleted"⟩ ∧
      ("garbage" ∉ ["idle", "expanding", "cloning", "snapshotting", "staged"]) ∧
      "volume is being deleted" ≠ "volume is in an unknown state" := by
  exact ⟨by simp [SetPvcStateTo], by simp [StagePvcOnNode], by decide, by decide⟩

/-- C10 (amended): for every claim whose deletion timestamp is unset and
whose state annotation is absent (`""`) or not one of the five known
states, `SetPvcStateTo` (with a requested state different from the
annotation's value) and `StagePvcOnNode` both return the
precondition-failed unknown-state error, before issuing any update. -/
theorem unknownState_rejected (pvc : Pvc) (newState nodeName : String)
    (hdt : pvc.deletionTimestamp = false)
    (h1 : pvc.state ≠ "idle") (h2 : pvc.state ≠ "expanding")
    (h3 : pvc.state ≠ "cloning") (h4 : pvc.state ≠ "snapshotting")
    (h5 : pvc.state ≠ "staged") (hne : pvc.state ≠ newState) :
    SetPvcStateTo pvc newState =
        .error ⟨.failedPrecondition, "volume is in an unknown state"⟩ ∧
      StagePvcOnNode pvc nodeName =
        .error ⟨.failedPrecondition, "volume is in an unknown state"⟩ := by
  constructor
  · simp [SetPvcStateTo, hdt, hne, h1, h2, h3, h4, h5]
  · simp [StagePvcOnNode, hdt, h1, h2, h3, h4, h5]

/-- C10, witness: a live claim with state annotation `"garbage"` is rejected
as unknown by both operations. -/
theorem unknownState_rejected_witness :
    SetPvcStateTo { state := "garbage" } "expanding" =
        .error ⟨.failedPrecondition, "volume is in an unknown state"⟩ ∧
      StagePvcOnNode { state := "garbage" } "node-1" =
        .error ⟨.failedPrecondition, "volume is in an unknown state"⟩ :=
  unknownState_rejected { state := "garbage" } "expanding" "node-1" rfl
    (by decide) (by decide) (by decide) (by decide) (by decide) (by decide)

/-- C2, counterexample: the reaper consults only the staged-on-nodes
annotation and the cleanup finalizer, never the state annotation: for a
dequeued claim in state `expanding` (non-idle) with an empty staged-on set
and the cleanup finalizer, `processNextItem` runs the full deletion
sequence, contradicting the claim that deletion never begins while the
state annotation holds a non-idle value. -/
theorem reaper_ignores_state_cex :
    processNextItem
        (.ok (some { deletionTimestamp := true, state := "expanding",
                     finalizers := [Domain ++ "/cleanup"] })) {} =
      (.forgotten,
       [.deleteCreationJob, .createDeletionJob, .awaitDeletionJob, .deleteDeletionJob,
        .dropFinalizer]) ∧
    ({ deletionTimestamp := true, state := "expanding",
       finalizers := [Domain ++ "/cleanup"] } : Pvc).state ≠ "idle" := by
  constructor
  · rfl
  · decide

/-- C2 (amended): for every dequeued key, the reaper issues deletion steps
only when the re-fetched claim exists, still carries the cleanup finalizer
and has an empty staged-on-nodes annotation (the state annotation is not
consulted); the steps issued are always a prefix of the sequence
delete-creation-job, create-deletion-job, await-deletion-job,
delete-deletion-job, drop-cleanup-finalizer; and when the guard holds and
every external call succeeds, the full sequence runs. -/
theorem reaper_deletion_guard (fetch : Except Unit (Option Pvc)) (env : ReaperEnv) :
    ((processNextItem fetch env).2 ≠ [] →
      ∃ pvc, fetch = .ok (some pvc) ∧ (Domain ++ "/cleanup") ∈ pvc.finalizers ∧
        pvc.stagedOnRead = "") ∧
    (∃ n, (processNextItem fetch env).2 =
      [ReaperStep.deleteCreationJob, .createDeletionJob, .awaitDeletionJob,
       .deleteDeletionJob, .dropFinalizer].take n) ∧
    (∀ pvc, fetch = .ok (some pvc) → (Domain ++ "/cleanup") ∈ pvc.finalizers →
      pvc.stagedOnRead = "" →
      env.deleteCreationJobOk = true → env.createDeletionJobOk = true →
      env.awaitDeletionJobOk = true → env.deleteDeletionJobOk = true →
      env.dropFinalizerOk = true →
      (processNextItem fetch env).2 =
        [.deleteCreationJob, .createDeletionJob, .awaitDeletionJob, .deleteDeletionJob,
         .dropFinalizer]) := by
  have hdvtake : ∃ n, (deleteVolume env).2 =
      [ReaperStep.deleteCreationJob, .createDeletionJob, .awaitDeletionJob,
       .deleteDeletionJob, .dropFinalizer].take n := by
    by_cases h1 : env.deleteCreationJobOk
    case neg => exact ⟨1, by simp [deleteVolume, h1]⟩
    case pos =>
      by_cases h2 : env.createDeletionJobOk
      case neg => exact ⟨2, by simp [deleteVolume, h1, h2]⟩
      case pos =>
        by_cases h3 : env.awaitDeletionJobOk
        case neg => exact ⟨3, by simp [deleteVolume, h1, h2, h3]⟩
        case pos =>
          by_cases h4 : env.deleteDeletionJobOk
          case neg => exact ⟨4, by simp [deleteVolume, h1, h2, h3, h4]⟩
          case pos =>
            by_cases h5 : env.dropFinalizerOk
            case neg => exact ⟨5, by simp [deleteVolume, h1, h2, h3, h4, h5]⟩
            case pos => exact ⟨5, by simp [deleteVolume, h1, h2, h3, h4, h5]⟩
  refine ⟨?_, ?_, ?_⟩
  · intro h
    rcases fetch with u | opvc
    · exact absurd rfl h
    rcases opvc with _ | pvc
    · exact absurd rfl h
    have hcond : ¬(pvc.stagedOnRead ≠ "") ∧ (Domain ++ "/cleanup") ∈ pvc.finalizers := by
      by_contra hc
      apply h
      simp only [processNextItem]
      rw [if_neg hc]
    exact ⟨pvc, rfl, hcond.2, not_not.mp hcond.1⟩
  · rcases fetch with u | opvc
    · exact ⟨0, rfl⟩
    rcases opvc with _ | pvc
    · exact ⟨0, rfl⟩
    by_cases hcond : ¬(pvc.stagedOnRead ≠ "") ∧ (Domain ++ "/cleanup") ∈ pvc.finalizers
    · have htr : (processNextItem (.ok (some pvc)) env).2 = (deleteVolume env).2 := by
        simp only [processNextItem]
        rw [if_pos hcond]
        rcases hdv : deleteVolume env with ⟨ok, steps⟩
        cases ok <;> rfl
      rw [htr]
      exact hdvtake
    · have htr : (processNextItem (.ok (some pvc)) env).2 = [] := by
        simp only [processNextItem]
        rw [if_neg hcond]
      rw [htr]
      exact ⟨0, rfl⟩
  · intro pvc hf hfin hstag h1 h2 h3 h4 h5
    subst hf
    have hcond : ¬(pvc.stagedOnRead ≠ "") ∧ (Domain ++ "/cleanup") ∈ pvc.finalizers :=
      ⟨not_ne_iff.mpr hstag, hfin⟩
    have htr : (processNextItem (.ok (some pvc)) env).2 = (deleteVolume env).2 := by
      simp only [processNextItem]
      rw [if_pos hcond]
      rcases hdv : deleteVolume env with ⟨ok, steps⟩
      cases ok <;> rfl
    rw [htr]
    simp [deleteVolume, h1, h2, h3, h4, h5]

/-- C2, witness: a dequeued claim with the cleanup finalizer and empty
staged-on set, with every external call succeeding, gets the full deletion
sequence. -/
theorem reaper_deletion_guard_witness :
    (processNextItem (.ok (some { finalizers := [Domain ++ "/cleanup"] })) {}).2 =
      [.deleteCreationJob, .createDeletionJob, .awaitDeletionJob, .deleteDeletionJob,
       .dropFinalizer] :=
  (reaper_deletion_guard (.ok (some { finalizers := [Domain ++ "/cleanup"] })) {}).2.2
    { finalizers := [Domain ++ "/cleanup"] } rfl (by simp) rfl rfl rfl rfl rfl rfl

theorem wrap64_eq_self {n : Int} (h1 : -twoPow63 ≤ n) (h2 : n < twoPow63) :
    wrap64 n = n := by
  unfold wrap64 twoPow63 at *
  rw [Int.emod_eq_of_lt (by omega) (by omega)]
  omega

/-- C5, counterexample: for a negative required capacity (allowed by the
`int64` field and not one of the claim's error cases), the code's
truncating division rounds toward zero: `validateCapacity` accepts
`min = -1000, max = 0` and returns capacity `0`, although the least
multiple of 512 greater than or equal to `-1000` is `-512`. -/
theorem validateCapacity_negative_min_cex :
    validateCapacity (some ⟨-1000, 0⟩) = .ok (0, -1000, 0) ∧
    ((512 : Int) ∣ -512) ∧ (-1000 : Int) ≤ -512 ∧ (-512 : Int) < 0 := by
  refine ⟨rfl, ⟨-1, by norm_num⟩, by norm_num, by norm_num⟩

/-- C5 (amended): `validateCapacity` returns an invalid-argument error
exactly when the range is absent, the minimum is zero, a non-zero maximum
is smaller than the minimum, or the minimum rounded up to a multiple of
512 exceeds a non-zero maximum; and in every other case with a positive
minimum small enough not to overflow `int64` (`min ≤ 2^63 - 512`), the
returned capacity is the least multiple of 512 greater than or equal to
the minimum. -/
theorem validateCapacity_spec :
    validateCapacity none = .error ⟨.invalidArgument, "must specify capacity"⟩ ∧
    (∀ maxC : Int, validateCapacity (some ⟨0, maxC⟩) =
      .error ⟨.invalidArgument, "must specify minimum capacity"⟩) ∧
    (∀ minC maxC : Int, 0 < minC → minC ≤ twoPow63 - 512 →
      (maxC ≠ 0 ∧ maxC < minC →
        validateCapacity (some ⟨minC, maxC⟩) =
          .error ⟨.invalidArgument, "minimum capacity must not exceed maximum capacity"⟩) ∧
      ∃ c, (512 ∣ c) ∧ minC ≤ c ∧ (∀ m : Int, 512 ∣ m → minC ≤ m → c ≤ m) ∧
        (¬(maxC ≠ 0 ∧ maxC < minC) →
          (maxC ≠ 0 ∧ maxC < c →
            validateCapacity (some ⟨minC, maxC⟩) =
              .error ⟨.invalidArgument, "capacity must be a multiple of 512"⟩) ∧
          (¬(maxC ≠ 0 ∧ maxC < c) →
            validateCapacity (some ⟨minC, maxC⟩) = .ok (c, minC, maxC)))) := by
  refine ⟨rfl, fun maxC => rfl, ?_⟩
  intro minC maxC hpos hbound
  have hb : (0 : Int) < twoPow63 := by unfold twoPow63; omega
  have hw1 : wrap64 (minC + 511) = minC + 511 :=
    wrap64_eq_self (by unfold twoPow63 at *; omega) (by unfold twoPow63 at *; omega)
  have ht : Int.tdiv (minC + 511) 512 = (minC + 511) / 512 :=
    Int.tdiv_eq_ediv (by omega) (by norm_num)
  have hqnn : 0 ≤ (minC + 511) / 512 := Int.ediv_nonneg (by omega) (by norm_num)
  have hqle : (minC + 511) / 512 * 512 ≤ minC + 511 := by omega
  have hw2 : wrap64 ((minC + 511) / 512 * 512) = (minC + 511) / 512 * 512 :=
    wrap64_eq_self (by unfold twoPow63 at *; omega) (by unfold twoPow63 at *; omega)
  have hcap : wrap64 (Int.tdiv (wrap64 (minC + 511)) 512 * 512) =
      (minC + 511) / 512 * 512 := by
    rw [hw1, ht, hw2]
  constructor
  · intro hlt
    simp only [validateCapacity]
    rw [if_neg (show ¬ (minC = 0) by omega), if_pos hlt]
  · refine ⟨(minC + 511) / 512 * 512, ⟨(minC + 511) / 512, by ring⟩, by omega, ?_, ?_⟩
    · intro m hdvd hle
      rcases hdvd with ⟨k, rfl⟩
      omega
    · intro hnotlt
      constructor
      · intro hcaplt
        simp only [validateCapacity]
        rw [if_neg (show ¬ (minC = 0) by omega), if_neg hnotlt]
        simp only [hcap]
        rw [if_pos hcaplt]
      · intro hnotcaplt
        simp only [validateCapacity]
        rw [if_neg (show ¬ (minC = 0) by omega), if_neg hnotlt]
        simp only [hcap]
        rw [if_neg hnotcaplt]

/-- C5, witness: `min = 513, max = 0` is accepted with capacity 1024, the
least multiple of 512 at or above 513. -/
theorem validateCapacity_spec_witness :
    ∃ c : Int, (512 ∣ c) ∧ (513 : Int) ≤ c ∧
      (∀ m : Int, 512 ∣ m → 513 ≤ m → c ≤ m) ∧
      validateCapacity (some ⟨513, 0⟩) = .ok (c, 513, 0) := by
  obtain ⟨c, hdvd, hle, hmin, hrest⟩ :=
    ((validateCapacity_spec.2.2 513 0 (by norm_num) (by unfold twoPow63; norm_num))).2
  exact ⟨c, hdvd, hle, hmin, (hrest (by simp)).2 (by simp)⟩

/-- C6, counterexample: an expansion call whose recorded capacity (2048)
already meets the rounded request (512) still fails when the recorded
capacity exceeds the non-zero supplied maximum (1024): the max check runs
before the already-big-enough early return, contradicting the claim that
every such call succeeds. -/
theorem controllerExpandVolume_max_check_cex :
    controllerExpandVolume "vol-1" (some ⟨512, 1024⟩)
        { pvcLookup := .ok { capacityAnn := some 2048 } } =
      (.error ⟨.invalidArgument, "current volume capacity exceeds maximum capacity"⟩,
       [.findPvc]) ∧
    validateCapacity (some ⟨512, 1024⟩) = .ok (512, 512, 1024) ∧
    (512 : Int) ≤ 2048 := by
  refine ⟨rfl, rfl, by norm_num⟩

/-- C6 (amended): for every expansion call whose recorded capacity is at
least the rounded requested capacity and does not exceed a non-zero
supplied maximum, the RPC succeeds with the recorded capacity and
`NodeExpansionRequired = false`, issuing no state transition and no
expansion job (the only external call is the PVC lookup). -/
theorem controllerExpandVolume_retry_success (volumeId : String)
    (range : Option CapacityRange) (env : ExpandEnv) (pvc : Pvc)
    (cap minC maxC cur : Int)
    (hvid : volumeId ≠ "")
    (hval : validateCapacity range = .ok (cap, minC, maxC))
    (hpvc : env.pvcLookup = .ok pvc)
    (hann : pvc.capacityAnn = some cur)
    (hbig : cap ≤ cur)
    (hmax : maxC = 0 ∨ cur ≤ maxC) :
    controllerExpandVolume volumeId range env = (.ok ⟨cur, false⟩, [.findPvc]) := by
  simp only [controllerExpandVolume, hval, hpvc, hann]
  rw [if_neg hvid,
    if_neg (show ¬(maxC ≠ 0 ∧ cur > maxC) by
      rcases hmax with h | h
      · simp [h]
      · intro hcontra; omega),
    if_pos (show cur ≥ cap from hbig)]

/-- C6, witness: a retried expansion to 512 bytes of a volume already at
2048 bytes succeeds with 2048 and performs only the lookup. -/
theorem controllerExpandVolume_retry_success_witness :
    controllerExpandVolume "vol-1" (some ⟨512, 0⟩)
        { pvcLookup := .ok { capacityAnn := some 2048 } } =
      (.ok ⟨2048, false⟩, [.findPvc]) :=
  controllerExpandVolume_retry_success "vol-1" (some ⟨512, 0⟩)
    { pvcLookup := .ok { capacityAnn := some 2048 } } { capacityAnn := some 2048 }
    512 512 0 2048 (by decide) rfl rfl rfl (by norm_num) (Or.inl rfl)

theorem patchPvc_not_mem_fromNothing (env : CreateEnv) (capacity c : Int) :
    CreateStep.patchPvc c ∉ (createVolumeFromNothing env capacity).2 := by
  unfold createVolumeFromNothing
  by_cases h1 : env.createJobOk <;> by_cases h2 : env.awaitJobOk <;> simp [h1, h2]

theorem patchPvc_not_mem_fromVolume (env : CreateEnv) (capacity maxCapacity c : Int) :
    CreateStep.patchPvc c ∉ (createVolumeFromVolume env capacity maxCapacity).2 := by
  unfold createVolumeFromVolume
  rcases hs : env.sourcePvcRes with e | src
  · simp
  rcases hc : env.setCloningRes with e | u
  · simp
  rcases ha : src.capacityAnn with _ | sc
  · simp [ha]
  by_cases hmx : maxCapacity ≠ 0 ∧ sc > maxCapacity
  · simp [ha, hmx]
  · by_cases h1 : env.createJobOk <;> by_cases h2 : env.awaitJobOk <;>
      rcases hi : env.setIdleRes with e2 | u2 <;> simp [ha, hmx, h1, h2, hi]

theorem patchPvc_not_mem_fromSnapshot (env : CreateEnv) (capacity maxCapacity c : Int) :
    CreateStep.patchPvc c ∉ (createVolumeFromSnapshot env capacity maxCapacity).2 := by
  unfold createVolumeFromSnapshot
  rcases hs : env.snapshotRes with e | snap
  · simp
  rcases ha : snap.sizeAnn with _ | sz
  · simp [ha]
  by_cases hmx : maxCapacity ≠ 0 ∧ sz > maxCapacity
  · simp [ha, hmx]
  · by_cases h1 : env.createJobOk <;> by_cases h2 : env.awaitJobOk <;>
      simp [ha, hmx, h1, h2]

/-- Control-flow shape of `createVolume`: the trace is empty (parameter
validation failed), just the lookup (an error before the patch), or starts
with the lookup and the finalizer-and-annotations patch carrying the
validated capacity, followed by helper steps that contain no further
patch; a successful response always reports the validated capacity. -/
theorem createVolume_shape (req : CreateVolumeRequest) (env : CreateEnv) :
    ((createVolume req env).2 = [] ∧ (∃ e, (createVolume req env).1 = .error e)) ∨
    ((createVolume req env).2 = [.getPvc] ∧
      (∃ e, (createVolume req env).1 = .error e)) ∨
    (∃ cap minC maxC, validateCapacity req.capacityRange = .ok (cap, minC, maxC) ∧
      (((createVolume req env).2 = [.getPvc, .patchPvc cap] ∧ env.patchOk = false ∧
          (∃ e, (createVolume req env).1 = .error e)) ∨
        (env.patchOk = true ∧ ∃ steps,
          (createVolume req env).2 = .getPvc :: .patchPvc cap :: steps ∧
          (∀ x, CreateStep.patchPvc x ∉ steps) ∧
          (∀ resp, (createVolume req env).1 = .ok resp →
            resp.capacityBytes = cap)))) := by
  by_cases p1 : getParam req.parameters "csi.storage.k8s.io/pvc/name" = ""
  · exact Or.inl ⟨by simp [createVolume, p1],
      missingParamErr "csi.storage.k8s.io/pvc/name", by simp [createVolume, p1]⟩
  by_cases p2 : getParam req.parameters "csi.storage.k8s.io/pvc/namespace" = ""
  · exact Or.inl ⟨by simp [createVolume, p1, p2],
      missingParamErr "csi.storage.k8s.io/pvc/namespace", by simp [createVolume, p1, p2]⟩
  by_cases p3 : getParam req.parameters "backingClaimName" = ""
  · exact Or.inl ⟨by simp [createVolume, p1, p2, p3],
      missingParamErr "backingClaimName", by simp [createVolume, p1, p2, p3]⟩
  by_cases p4 : getParam req.parameters "backingClaimNamespace" = ""
  · exact Or.inl ⟨by simp [createVolume, p1, p2, p3, p4],
      missingParamErr "backingClaimNamespace", by simp [createVolume, p1, p2, p3, p4]⟩
  rcases hg : env.getPvcRes with e | pvc
  · exact Or.inr (Or.inl ⟨by simp [createVolume, p1, p2, p3, p4, hg],
      e, by simp [createVolume, p1, p2, p3, p4, hg]⟩)
  rcases hv : validateCapacity req.capacityRange with e | ⟨cap, minC, maxC⟩
  · exact Or.inr (Or.inl ⟨by simp [createVolume, p1, p2, p3, p4, hg, hv],
      e, by simp [createVolume, p1, p2, p3, p4, hg, hv]⟩)
  rcases hcap : checkCapabilities req.volumeCapabilities with e | u
  · exact Or.inr (Or.inl ⟨by simp [createVolume, p1, p2, p3, p4, hg, hv, hcap],
      e, by simp [createVolume, p1, p2, p3, p4, hg, hv, hcap]⟩)
  refine Or.inr (Or.inr ⟨cap, minC, maxC, rfl, ?_⟩)
  by_cases hp : env.patchOk
  case neg =>
    refine Or.inl ⟨by simp [createVolume, p1, p2, p3, p4, hg, hv, hcap, hp], by
        simp [hp], patchErr, by simp [createVolume, p1, p2, p3, p4, hg, hv, hcap, hp]⟩
  case pos =>
    refine Or.inr ⟨by simp [hp], ?_⟩
    have hnotmem : ∀ x, CreateStep.patchPvc x ∉
        (match req.volumeContentSource with
          | none => createVolumeFromNothing env cap
          | some (.volume _) => createVolumeFromVolume env cap maxC
          | some (.snapshot _) => createVolumeFromSnapshot env cap maxC
          | some .unsupported =>
            (.error ⟨.invalidArgument, "unsupported volume content source"⟩, [])).2 := by
      rcases req.volumeContentSource with _ | cs
      · exact fun x => patchPvc_not_mem_fromNothing env cap x
      rcases cs with vid | sid | _
      · exact fun x => patchPvc_not_mem_fromVolume env cap maxC x
      · exact fun x => patchPvc_not_mem_fromSnapshot env cap maxC x
      · simp
    rcases hcs : req.volumeContentSource with _ | cs
    case none =>
      rcases hh : createVolumeFromNothing env cap with ⟨res, steps⟩
      have hnm : ∀ x, CreateStep.patchPvc x ∉ steps := by
        intro x
        have := hnotmem x
        rw [hcs, hh] at this
        exact this
      rcases res with e | u2
      · refine ⟨steps, by simp [createVolume, p1, p2, p3, p4, hg, hv, hcap, hp, hcs, hh],
          hnm, ?_⟩
        intro resp hresp
        rw [show (createVolume req env).1 = .error e by
          simp [createVolume, p1, p2, p3, p4, hg, hv, hcap, hp, hcs, hh]] at hresp
        exact absurd hresp (by simp)
      · refine ⟨steps, by simp [createVolume, p1, p2, p3, p4, hg, hv, hcap, hp, hcs, hh],
          hnm, ?_⟩
        intro resp hresp
        rw [show (createVolume req env).1 = .ok ⟨cap, pvc.uid⟩ by
          simp [createVolume, p1, p2, p3, p4, hg, hv, hcap, hp, hcs, hh]] at hresp
        cases hresp
        rfl
    case some =>
      rcases cs with vid | sid | _
      · rcases hh : createVolumeFromVolume env cap maxC with ⟨res, steps⟩
        have hnm : ∀ x, CreateStep.patchPvc x ∉ steps := by
          intro x
          have := hnotmem x
          rw [hcs, hh] at this
          exact this
        rcases res with e | u2
        · refine ⟨steps,
            by simp [createVolume, p1, p2, p3, p4, hg, hv, hcap, hp, hcs, hh], hnm, ?_⟩
          intro resp hresp
          rw [show (createVolume req env).1 = .error e by
            simp [createVolume, p1, p2, p3, p4, hg, hv, hcap, hp, hcs, hh]] at hresp
          exact absurd hresp (by simp)
        · refine ⟨steps,
            by simp [createVolume, p1, p2, p3, p4, hg, hv, hcap, hp, hcs, hh], hnm, ?_⟩
          intro resp hresp
          rw [show (createVolume req env).1 = .ok ⟨cap, pvc.uid⟩ by
            simp [createVolume, p1, p2, p3, p4, hg, hv, hcap, hp, hcs, hh]] at hresp
          cases hresp
          rfl
      · rcases hh : createVolumeFromSnapshot env cap maxC with ⟨res, steps⟩
        have hnm : ∀ x, CreateStep.patchPvc x ∉ steps := by
          intro x
          have := hnotmem x
          rw [hcs, hh] at this
          exact this
        rcases res with e | u2
        · refine ⟨steps,
            by simp [createVolume, p1, p2, p3, p4, hg, hv, hcap, hp, hcs, hh], hnm, ?_⟩
          intro resp hresp
          rw [show (createVolume req env).1 = .error e by
            simp [createVolume, p1, p2, p3, p4, hg, hv, hcap, hp, hcs, hh]] at hresp
          exact absurd hresp (by simp)
        · refine ⟨steps,
            by simp [createVolume, p1, p2, p3, p4, hg, hv, hcap, hp, hcs, hh], hnm, ?_⟩
          intro resp hresp
          rw [show (createVolume req env).1 = .ok ⟨cap, pvc.uid⟩ by
            simp [createVolume, p1, p2, p3, p4, hg, hv, hcap, hp, hcs, hh]] at hresp
          cases hresp
          rfl
      · refine ⟨[], by simp [createVolume, p1, p2, p3, p4, hg, hv, hcap, hp, hcs],
          by simp, ?_⟩
        intro resp hresp
        rw [show (createVolume req env).1 =
            .error ⟨.invalidArgument, "unsupported volume content source"⟩ by
          simp [createVolume, p1, p2, p3, p4, hg, hv, hcap, hp, hcs]] at hresp
        exact absurd hresp (by simp)

/-- C7, counterexample: cloning a 2048-byte source volume with a 512-byte
request dispatches the creation job with capacity `max 512 2048 = 2048`,
but the capacity recorded on the new claim by the finalizer patch (and the
capacity reported in the response) is 512, not the maximum: the annotation
is patched before the helper raises its local capacity. -/
theorem createVolume_recorded_capacity_cex :
    createVolume
        { parameters := [("csi.storage.k8s.io/pvc/name", "pvc-1"),
                         ("csi.storage.k8s.io/pvc/namespace", "ns"),
                         ("backingClaimName", "backing"),
                         ("backingClaimNamespace", "backing-ns")],
          capacityRange := some ⟨512, 0⟩,
          volumeCapabilities := [],
          volumeContentSource := some (.volume "src-uid") }
        { getPvcRes := .ok { uid := "dst-uid" },
          sourcePvcRes := .ok { uid := "src-uid", capacityAnn := some 2048 } } =
      (.ok ⟨512, "dst-uid"⟩,
       [.getPvc, .patchPvc 512, .findSourcePvc, .setSourceCloning, .createJob 2048,
        .awaitJob, .setSourceIdle]) ∧
    max (512 : Int) 2048 = 2048 ∧ (512 : Int) ≠ 2048 := by
  refine ⟨rfl, by norm_num, by norm_num⟩

/-- C7 (amended): for create-from-volume and create-from-snapshot, the
capacity passed to the image-creation job equals the maximum of the
rounded requested capacity and the source volume's recorded capacity
(respectively the snapshot's recorded size), and a non-zero maximum
smaller than the source capacity (snapshot size) yields invalid-argument;
but the capacity annotation recorded on the new claim, and the capacity
returned in the response, are always the rounded requested capacity, which
may be smaller than the source's. -/
theorem derivedVolume_capacity_spec :
    (∀ (env : CreateEnv) (capacity maxCapacity : Int) (sourcePvc : Pvc)
        (sourceCapacity c : Int),
      env.sourcePvcRes = .ok sourcePvc →
      sourcePvc.capacityAnn = some sourceCapacity →
      CreateStep.createJob c ∈ (createVolumeFromVolume env capacity maxCapacity).2 →
      c = max capacity sourceCapacity) ∧
    (∀ (env : CreateEnv) (capacity maxCapacity : Int) (sourcePvc : Pvc)
        (sourceCapacity : Int),
      env.sourcePvcRes = .ok sourcePvc →
      sourcePvc.capacityAnn = some sourceCapacity →
      env.setCloningRes = .ok () →
      maxCapacity ≠ 0 → sourceCapacity > maxCapacity →
      (createVolumeFromVolume env capacity maxCapacity).1 =
        .error ⟨.invalidArgument, "source volume capacity exceeds maximum capacity"⟩) ∧
    (∀ (env : CreateEnv) (capacity maxCapacity : Int) (snap : Snap)
        (snapshotSize c : Int),
      env.snapshotRes = .ok snap →
      snap.sizeAnn = some snapshotSize →
      CreateStep.createJob c ∈ (createVolumeFromSnapshot env capacity maxCapacity).2 →
      c = max capacity snapshotSize) ∧
    (∀ (env : CreateEnv) (capacity maxCapacity : Int) (snap : Snap)
        (snapshotSize : Int),
      env.snapshotRes = .ok snap → snap.sizeAnn = some snapshotSize →
      maxCapacity ≠ 0 → snapshotSize > maxCapacity →
      (createVolumeFromSnapshot env capacity maxCapacity).1 =
        .error ⟨.invalidArgument, "source snapshot size exceeds maximum capacity"⟩) ∧
    (∀ (req : CreateVolumeRequest) (env : CreateEnv) (c : Int),
      CreateStep.patchPvc c ∈ (createVolume req env).2 →
      ∃ minC maxC, validateCapacity req.capacityRange = .ok (c, minC, maxC)) ∧
    (∀ (req : CreateVolumeRequest) (env : CreateEnv) (resp : CreateVolumeResponse),
      (createVolume req env).1 = .ok resp →
      ∃ minC maxC,
        validateCapacity req.capacityRange = .ok (resp.capacityBytes, minC, maxC)) := by
  have hmax : ∀ a b : Int, (if a < b then b else a) = max a b := by
    intro a b
    rcases lt_or_ge a b with h | h
    · rw [if_pos h, max_eq_right h.le]
    · rw [if_neg (not_lt.mpr h), max_eq_left h]
  refine ⟨?_, ?_, ?_, ?_, ?_, ?_⟩
  · intro env capacity maxCapacity sourcePvc sourceCapacity c hsrc hann hmem
    simp only [createVolumeFromVolume, hsrc, hann] at hmem
    rcases hscl : env.setCloningRes with e | u
    · simp only [hscl] at hmem
      simp at hmem
    · simp only [hscl] at hmem
      by_cases hmx : maxCapacity ≠ 0 ∧ sourceCapacity > maxCapacity
      · rw [if_pos hmx] at hmem
        simp at hmem
      · rw [if_neg hmx] at hmem
        by_cases h1 : env.createJobOk <;> by_cases h2 : env.awaitJobOk <;>
            rcases hsi : env.setIdleRes with e2 | u2 <;>
            simp [h1, h2, hsi] at hmem <;>
          exact hmem.trans (hmax _ _)
  · intro env capacity maxCapacity sourcePvc sourceCapacity hsrc hann hscl hmx1 hmx2
    simp only [createVolumeFromVolume, hsrc, hscl, hann]
    rw [if_pos ⟨hmx1, hmx2⟩]
  · intro env capacity maxCapacity snap snapshotSize c hsnap hann hmem
    simp only [createVolumeFromSnapshot, hsnap, hann] at hmem
    by_cases hmx : maxCapacity ≠ 0 ∧ snapshotSize > maxCapacity
    · rw [if_pos hmx] at hmem
      simp at hmem
    · rw [if_neg hmx] at hmem
      by_cases h1 : env.createJobOk <;> by_cases h2 : env.awaitJobOk <;>
          simp [h1, h2] at hmem <;>
        exact hmem.trans (hmax _ _)
  · intro env capacity maxCapacity snap snapshotSize hsnap hann hmx1 hmx2
    simp only [createVolumeFromSnapshot, hsnap, hann]
    rw [if_pos ⟨hmx1, hmx2⟩]
  · intro req env c hmem
    rcases createVolume_shape req env with ⟨h2, _⟩ | ⟨h2, _⟩ |
      ⟨cap, minC, maxC, hval, hrest⟩
    · rw [h2] at hmem
      simp at hmem
    · rw [h2] at hmem
      simp at hmem
    · rcases hrest with ⟨h2, _, _⟩ | ⟨_, steps, h2, hnm, _⟩
      · rw [h2] at hmem
        simp at hmem
        exact ⟨minC, maxC, by rw [hmem]; exact hval⟩
      · rw [h2] at hmem
        rcases List.mem_cons.mp hmem with h | h
        · exact absurd h (by simp)
        rcases List.mem_cons.mp h with h | h
        · simp only [CreateStep.patchPvc.injEq] at h
          exact ⟨minC, maxC, by rw [h]; exact hval⟩
        · exact absurd h (hnm c)
  · intro req env resp hresp
    rcases createVolume_shape req env with ⟨_, e, herr⟩ | ⟨_, e, herr⟩ |
      ⟨cap, minC, maxC, hval, hrest⟩
    · rw [herr] at hresp
      exact absurd hresp (by simp)
    · rw [herr] at hresp
      exact absurd hresp (by simp)
    · rcases hrest with ⟨_, _, e, herr⟩ | ⟨_, steps, _, _, hok⟩
      · rw [herr] at hresp
        exact absurd hresp (by simp)
      · exact ⟨minC, maxC, by rw [hok resp hresp]; exact hval⟩

/-- C7, witness: with a 2048-byte source and a 512-byte request, the clone
job capacity is `max 512 2048`. -/
theorem derivedVolume_capacity_spec_witness : (2048 : Int) = max 512 2048 :=
  derivedVolume_capacity_spec.1
    { sourcePvcRes := .ok { uid := "src", capacityAnn := some 2048 } } 512 0
    { uid := "src", capacityAnn := some 2048 } 2048 2048 rfl rfl (by decide)

/-- C8: on every path of `CreateVolume`, dispatching an image-creation job
strictly follows the successful finalizer-and-annotations patch: no
creation-job step ever precedes the patch step in the trace, and a trace
containing a creation job implies the patch succeeded.  In particular a
call failing before the patch (missing parameter, failed lookup, invalid
capacity range, unsupported capability) has dispatched no job. -/
theorem createJob_after_finalizer_patch (req : CreateVolumeRequest) (env : CreateEnv) :
    (((createVolume req env).2.takeWhile (fun s => ! s.isPatch)).all
        (fun s => ! s.isCreateJob) = true) ∧
    ((∃ c, CreateStep.createJob c ∈ (createVolume req env).2) →
      env.patchOk = true) := by
  rcases createVolume_shape req env with ⟨h2, _⟩ | ⟨h2, _⟩ |
    ⟨cap, minC, maxC, hval, hrest⟩
  · rw [h2]
    exact ⟨rfl, by rintro ⟨c, hc⟩; simp at hc⟩
  · rw [h2]
    refine ⟨by simp [CreateStep.isPatch, CreateStep.isCreateJob], ?_⟩
    rintro ⟨c, hc⟩
    simp at hc
  · rcases hrest with ⟨h2, hpf, _⟩ | ⟨hpt, steps, h2, hnm, _⟩
    · rw [h2]
      refine ⟨by simp [CreateStep.isPatch, CreateStep.isCreateJob], ?_⟩
      rintro ⟨c, hc⟩
      simp at hc
    · rw [h2]
      refine ⟨by simp [CreateStep.isPatch, CreateStep.isCreateJob], ?_⟩
      intro _
      exact hpt

/-- C8, witness: a well-formed from-nothing request with a succeeding
environment has a creation job in its trace, so the patch succeeded. -/
theorem createJob_after_finalizer_patch_witness : ({} : CreateEnv).patchOk = true :=
  (createJob_after_finalizer_patch
      { parameters := [("csi.storage.k8s.io/pvc/name", "p"),
                       ("csi.storage.k8s.io/pvc/namespace", "ns"),
                       ("backingClaimName", "b"), ("backingClaimNamespace", "bns")],
        capacityRange := some ⟨512, 0⟩ } {}).2
    ⟨512, by decide⟩

end Subprovisioner
